import Mathlib

/-!
Verification of the Entrust IdentityGuard TOTP tools (`entrust-totp.js`):
the secret-derivation pipeline (`parseCode`, `generateOtpSecret` in its Node
and browser variants), the otpauth URI encoder (`generateOtpauthUri`), the
RFC 4648 Base32 encoder (`base32Encode`) and the front-end input validator
(`validateInputs`), shallowly embedded over `Nat`/`Int`/`List`/`String`.
JavaScript strings are modelled as Lean `String` (sequences of Unicode
scalar values); machine-integer effects (`int32` wrap in bit operations,
`BigInt`/`Buffer` range checks) are made explicit with `% 2 ^ 32` and
explicit range tests.
-/

/-- The character classes of JavaScript string-to-number conversion:
`\d` of the validation regexes and of `parseInt` / `BigInt` digit parsing. -/
def isDigitChar (c : Char) : Bool :=
  48 ≤ c.toNat && c.toNat ≤ 57

/-- JavaScript `StrWhiteSpaceChar`: the characters trimmed by `BigInt(string)`
and skipped by `parseInt` (TAB LF VT FF CR SP NBSP and the Unicode
space separators, line separators and BOM). -/
def isJsWhitespace (c : Char) : Bool :=
  let n := c.toNat
  n = 9 || n = 10 || n = 11 || n = 12 || n = 13 || n = 32 || n = 160 ||
  n = 0x1680 || (0x2000 ≤ n && n ≤ 0x200A) || n = 0x2028 || n = 0x2029 ||
  n = 0x202F || n = 0x205F || n = 0x3000 || n = 0xFEFF

/-- Hexadecimal value of a character: `0`–`9`, `a`–`f`, `A`–`F`. -/
def charHexVal? (c : Char) : Option Nat :=
  if isDigitChar c then some (c.toNat - 48)
  else if 97 ≤ c.toNat && c.toNat ≤ 102 then some (c.toNat - 87)
  else if 65 ≤ c.toNat && c.toNat ≤ 70 then some (c.toNat - 55)
  else none

/-- Value of a digit character under a radix, as in JavaScript numeric
parsing: `0`–`9`, `a`–`f`, `A`–`F`, accepted only when below the radix. -/
def digitValue? (radix : Nat) (c : Char) : Option Nat :=
  match charHexVal? c with
  | some d => if d < radix then some d else none
  | none => none

/-- Decimal value of a digit list, most significant first (the value JS
assigns to a string of decimal digits). -/
def digitsToNat (l : List Char) : Nat :=
  l.foldl (fun acc c => acc * 10 + (c.toNat - 48)) 0

/-- Radix accumulation over a list of digit characters; `none` as soon as a
character is not a digit of the radix. -/
def parseRadixGo (radix : Nat) (acc : Nat) : List Char → Option Nat
  | [] => some acc
  | c :: cs =>
    match digitValue? radix c with
    | some d => parseRadixGo radix (acc * radix + d) cs
    | none => none

/-- Nonempty all-digit string of the given radix, else `none`. -/
def parseRadix (radix : Nat) (l : List Char) : Option Nat :=
  if l.isEmpty then none else parseRadixGo radix 0 l

/-- `SignedInteger` branch of JS `StringToBigInt`: an optional sign followed
by at least one decimal digit. -/
def parseSignedDec (l : List Char) : Option Int :=
  match l with
  | '+' :: rest => (parseRadix 10 rest).map Int.ofNat
  | '-' :: rest => (parseRadix 10 rest).map (fun n => -(Int.ofNat n))
  | _ => (parseRadix 10 l).map Int.ofNat

/-- JavaScript `BigInt(string)` (ECMA-262 `StringToBigInt`): trim JS
whitespace; empty means `0`; `0x`/`0o`/`0b` prefixes select a radix
(no sign allowed); otherwise an optionally signed decimal numeral.
`none` models the thrown `SyntaxError`. -/
def jsStringToBigInt (s : String) : Option Int :=
  match ((s.toList.dropWhile isJsWhitespace).reverse.dropWhile isJsWhitespace).reverse with
  | [] => some 0
  | '0' :: x :: rest =>
    if x = 'x' ∨ x = 'X' then (parseRadix 16 rest).map Int.ofNat
    else if x = 'o' ∨ x = 'O' then (parseRadix 8 rest).map Int.ofNat
    else if x = 'b' ∨ x = 'B' then (parseRadix 2 rest).map Int.ofNat
    else parseSignedDec ('0' :: x :: rest)
  | t => parseSignedDec t

/-- Longest leading sequence of radix digits, with its value; `none` when it
is empty (JS `NaN`). -/
def radixPrefixVal (radix : Nat) (l : List Char) : Option Nat :=
  parseRadix radix (l.takeWhile (fun c => (digitValue? radix c).isSome))

/-- After `parseInt` has stripped whitespace and sign: `0x`/`0X` selects
base 16, otherwise base 10; value of the longest digit prefix. -/
def parseIntAfterSign : List Char → Option Nat
  | '0' :: x :: rest =>
    if x = 'x' ∨ x = 'X' then radixPrefixVal 16 rest
    else radixPrefixVal 10 ('0' :: x :: rest)
  | l => radixPrefixVal 10 l

/-- JavaScript `parseInt(string)` with no radix argument: skip leading JS
whitespace, optional sign, `0x`/`0X` selects base 16, then the longest
prefix of radix digits; an empty prefix is `NaN`, modelled as `none`.
The JS result is a float, but every value this model is used at is either
below `2 ^ 53` (hence exact) or only tested against `2 ^ 32` (a comparison
the float rounding preserves), so the exact-integer model is observationally
faithful. -/
def parseIntJs (s : String) : Option Int :=
  match s.toList.dropWhile isJsWhitespace with
  | '+' :: t => (parseIntAfterSign t).map Int.ofNat
  | '-' :: t => (parseIntAfterSign t).map (fun n => -(Int.ofNat n))
  | l => (parseIntAfterSign l).map Int.ofNat

/-- Big-endian byte encoding of `v` in exactly `len` bytes (the layout
`Buffer.writeBigUInt64BE` / `Buffer.writeUInt32BE` store). -/
def beBytes : Nat → Nat → List Nat
  | _, 0 => []
  | v, len + 1 => beBytes (v / 256) len ++ [v % 256]

/-- UTF-8 encoding of one Unicode scalar value, as `TextEncoder` /
`Buffer.from(s, 'utf-8')` produce. -/
def utf8EncodeCharNat (c : Char) : List Nat :=
  let n := c.toNat
  if n < 0x80 then [n]
  else if n < 0x800 then [0xC0 + n / 64, 0x80 + n % 64]
  else if n < 0x10000 then [0xE0 + n / 4096, 0x80 + (n / 64) % 64, 0x80 + n % 64]
  else [0xF0 + n / 262144, 0x80 + (n / 4096) % 64, 0x80 + (n / 64) % 64, 0x80 + n % 64]

/-- UTF-8 bytes of a string. -/
def utf8Bytes (s : String) : List Nat :=
  s.toList.flatMap utf8EncodeCharNat

/-- The two kinds of exception the derivation code can throw:
`parseError` models the `SyntaxError` thrown by `BigInt(string)` on a
malformed numeral, `rangeError` the `ERR_OUT_OF_RANGE` (a `RangeError`)
thrown by the `Buffer` write methods. -/
inductive JsError where
  | parseError : JsError
  | rangeError : JsError
deriving DecidableEq, Repr

/-- `parseCode` (entrust-totp.js line 27): `input.replace` with a global
hyphen pattern, removing every hyphen and keeping all other characters in
order. -/
def parseCode (input : String) : String :=
  String.mk (input.toList.filter (fun c => c != '-'))

/-- JavaScript `s.slice(0, -1)`: drop the final character (identity on the
empty string). -/
def jsSlice0Neg1 (s : String) : String :=
  String.mk s.toList.dropLast

/-- `Buffer.alloc(8).writeBigUInt64BE(v)`: the 8 big-endian bytes of `v`,
or a `RangeError` when `v` is outside `[0, 2^64 - 1]`. -/
def writeBigUInt64BE (v : Int) : Except JsError (List Nat) :=
  if 0 ≤ v ∧ v ≤ 2 ^ 64 - 1 then Except.ok (beBytes v.toNat 8)
  else Except.error JsError.rangeError

/-- `Buffer.alloc(4).writeUInt32BE(v)` where `v` is `parseInt`'s result:
`NaN` (`none`) passes the range check and is coerced to four zero bytes;
an integer outside `[0, 2^32 - 1]` is a `RangeError`; otherwise the 4
big-endian bytes. -/
def writeUInt32BE : Option Int → Except JsError (List Nat)
  | none => Except.ok [0, 0, 0, 0]
  | some v =>
    if 0 ≤ v ∧ v ≤ 2 ^ 32 - 1 then Except.ok (beBytes v.toNat 4)
    else Except.error JsError.rangeError

/-- `generateOtpSecret` (entrust-totp.js lines 39–74, the Node CLI variant).
The external primitive `crypto.pbkdf2Sync(password, salt, 8, 16, 'sha256')`
is modelled by the function parameter `kdf`, applied to exactly the
arguments the source passes (`kdf password salt iterations keyLen`). -/
def generateOtpSecret (kdf : List Nat → List Nat → Nat → Nat → List Nat)
    (serial activationCode registrationCode policy : String) :
    Except JsError (List Nat) :=
  let cleanSerial := parseCode serial
  let cleanActivation := parseCode activationCode
  let cleanRegistration := parseCode registrationCode
  let activationWithoutCheck := jsSlice0Neg1 cleanActivation
  let registrationWithoutCheck := jsSlice0Neg1 cleanRegistration
  match jsStringToBigInt activationWithoutCheck with
  | none => Except.error JsError.parseError
  | some activationNum =>
    match writeBigUInt64BE activationNum with
    | Except.error e => Except.error e
    | Except.ok activationBytes =>
      let activationBytes7 := activationBytes.drop 1
      let registrationNum := parseIntJs registrationWithoutCheck
      match writeUInt32BE registrationNum with
      | Except.error e => Except.error e
      | Except.ok registrationBytes =>
        let rngBytes := (registrationBytes.drop 2).take 2
        let password := activationBytes7 ++ rngBytes
        let password :=
          if 0 < policy.length then password ++ utf8Bytes policy else password
        let salt := utf8Bytes cleanSerial
        Except.ok (kdf password salt 8 16)

/-- `bigIntToBytes` (entrust-totp.js lines 177–184, browser variant):
big-endian bytes of a BigInt, filling from the least-significant end with
`& 0xFFn` and the arithmetic shift `>> 8n`; on a BigInt these are the
Euclidean remainder and floor division by 256. No range check: high bytes
beyond `byteLength` are silently lost. -/
def bigIntToBytes : Int → Nat → List Nat
  | _, 0 => []
  | num, len + 1 => bigIntToBytes (Int.ediv num 256) len ++ [(Int.emod num 256).toNat]

/-- The `ToUint32` coercion the `>>>` operator applies to `parseInt`'s
result: `NaN` becomes 0, an integer is reduced mod `2 ^ 32`. -/
def jsToUint32 : Option Int → Nat
  | none => 0
  | some v => (Int.emod v (2 ^ 32)).toNat

/-- `uint32ToBytes` (lines 191–198): the four big-endian bytes extracted
with unsigned shifts and `& 0xFF`. -/
def uint32ToBytes (num : Option Int) : List Nat :=
  let m := jsToUint32 num
  [m / 2 ^ 24 % 256, m / 2 ^ 16 % 256, m / 2 ^ 8 % 256, m % 256]

namespace Browser

/-- `generateOtpSecret` (lines 255–288, browser variant).
`stringToUtf8Bytes` (a `TextEncoder`, lines 167–169) is `utf8Bytes`;
`concatBytes` (lines 205–214) is list append; the `pbkdf2` wrapper
(lines 224–245) hands `(password, salt, 8, 16)` to WebCrypto
PBKDF2-HMAC-SHA-256, modelled by the same abstract `kdf` parameter as in
the Node variant. -/
def generateOtpSecret (kdf : List Nat → List Nat → Nat → Nat → List Nat)
    (serial activationCode registrationCode policy : String) :
    Except JsError (List Nat) :=
  let cleanSerial := parseCode serial
  let cleanActivation := parseCode activationCode
  let cleanRegistration := parseCode registrationCode
  let activationWithoutCheck := jsSlice0Neg1 cleanActivation
  let registrationWithoutCheck := jsSlice0Neg1 cleanRegistration
  match jsStringToBigInt activationWithoutCheck with
  | none => Except.error JsError.parseError
  | some activationNum =>
    let activationBytes8 := bigIntToBytes activationNum 8
    let activationBytes7 := activationBytes8.drop 1
    let registrationNum := parseIntJs registrationWithoutCheck
    let registrationBytes := uint32ToBytes registrationNum
    let rngBytes := (registrationBytes.drop 2).take 2
    let password := activationBytes7 ++ rngBytes
    let password :=
      if 0 < policy.length then password ++ utf8Bytes policy else password
    let salt := utf8Bytes cleanSerial
    Except.ok (kdf password salt 8 16)

end Browser

/-- The RFC 4648 alphabet string of `base32Encode` (line 296). -/
def b32Alphabet : List Char := "ABCDEFGHIJKLMNOPQRSTUVWXYZ234567".toList

/-- `alphabet[i]` lookup of the encoder (every index it uses is `< 32`). -/
def b32Char (i : Nat) : Char := b32Alphabet.getD i 'A'

/-- The inner `while (bits >= 5)` loop of `base32Encode` (lines 305–308):
emits `alphabet[(value >>> (bits - 5)) & 31]` and decrements `bits` by 5
until `bits < 5`; returns the emitted characters and the final `bits`.
`value` stays below `2 ^ 12`, so the shift-and-mask is exact division. -/
def b32EmitWhile (value : Nat) : Nat → List Char × Nat
  | 0 => ([], 0)
  | 1 => ([], 1)
  | 2 => ([], 2)
  | 3 => ([], 3)
  | 4 => ([], 4)
  | bits + 5 =>
    let rest := b32EmitWhile value bits
    (b32Char (value / 2 ^ bits % 32) :: rest.1, rest.2)

/-- The `for` loop of `base32Encode` (lines 301–314) plus the final
flush: `value = (value << 8) | data[i]` on an int32 is
`(value * 256 + byte) % 2 ^ 32` (`Uint8Array` elements are bytes, so the
bitwise or is addition), and after the loop a remainder of `bits > 0`
emits `alphabet[(value << (5 - bits)) & 31]`. -/
def base32Loop : List Nat → Nat → Nat → List Char
  | [], value, bits =>
    if 0 < bits then [b32Char (value * 2 ^ (5 - bits) % 32)] else []
  | b :: rest, value, bits =>
    let value2 := (value * 256 + b % 256) % 2 ^ 32
    let out := b32EmitWhile value2 (bits + 8)
    out.1 ++ base32Loop rest value2 out.2

/-- `base32Encode` (lines 295–316): RFC 4648 Base32 without padding. The
Node variant's `base32-encode` npm call with `'RFC4648', padding: false`
(line 85) produces this same encoding; the repository's own implementation
is the model for both. -/
def base32Encode (data : List Nat) : String :=
  String.mk (base32Loop data 0 0)

/-- ASCII letters and digits. -/
def isAsciiAlphaNum (c : Char) : Bool :=
  isDigitChar c || (65 ≤ c.toNat && c.toNat ≤ 90) || (97 ≤ c.toNat && c.toNat ≤ 122)

/-- The `uriUnescaped` set of ECMA-262 `encodeURIComponent`: ASCII
alphanumerics and `- _ . ! ~ * ' ( )` (code points 45 95 46 33 126 42 39
40 41). -/
def isUriUnescaped (c : Char) : Bool :=
  isAsciiAlphaNum c ||
  [45, 95, 46, 33, 126, 42, 39, 40, 41].contains c.toNat

/-- The characters `application/x-www-form-urlencoded` serialization leaves
unescaped: ASCII alphanumerics and `* - . _`. -/
def isFormUnreserved (c : Char) : Bool :=
  isAsciiAlphaNum c || [42, 45, 46, 95].contains c.toNat

/-- Uppercase hexadecimal digit. -/
def hexDigitChar (n : Nat) : Char :=
  if n < 10 then Char.ofNat (48 + n) else Char.ofNat (55 + n)

/-- `%XX` escape of one byte, uppercase hex. -/
def percentByte (b : Nat) : List Char :=
  ['%', hexDigitChar (b / 16), hexDigitChar (b % 16)]

/-- ECMA-262 `encodeURIComponent`: characters of the `uriUnescaped` set are
kept, every other character has each of its UTF-8 bytes written as `%XX`. -/
def encodeURIComponent (s : String) : String :=
  String.mk (s.toList.flatMap fun c =>
    if isUriUnescaped c then [c] else (utf8EncodeCharNat c).flatMap percentByte)

/-- WHATWG `application/x-www-form-urlencoded` serialization of one
component, as `URLSearchParams.toString` applies to each key and value:
space becomes `+`, the unreserved characters stay, every other character
has each UTF-8 byte written as `%XX`. -/
def formUrlEncode (s : String) : String :=
  String.mk (s.toList.flatMap fun c =>
    if c.toNat = 32 then ['+']
    else if isFormUnreserved c then [c]
    else (utf8EncodeCharNat c).flatMap percentByte)

/-- `new URLSearchParams({...}).toString()`: the pairs in object insertion
order, each serialized `key=value` and joined with `&`. -/
def urlSearchParamsToString (pairs : List (String × String)) : String :=
  String.intercalate "&" (pairs.map fun kv => formUrlEncode kv.1 ++ "=" ++ formUrlEncode kv.2)

/-- `generateOtpauthUri` (entrust-totp.js lines 83–100; the browser copy at
lines 325–342 is line-identical except that it calls the in-repository
`base32Encode`, which is the model used here for both). -/
def generateOtpauthUri (issuer accountName : String) (secretBuffer : List Nat) : String :=
  let secret := base32Encode secretBuffer
  let label := encodeURIComponent (issuer ++ ":" ++ accountName)
  let params := urlSearchParamsToString
    [("secret", secret), ("issuer", issuer), ("algorithm", "SHA256"),
     ("digits", "6"), ("period", "30")]
  "otpauth://totp/" ++ label ++ "?" ++ params

/-- The regex test `^[\d-]+$` used by `validateInputs`: nonempty, digits and
hyphens only. -/
def jsTestDigitHyphen (s : String) : Bool :=
  !s.isEmpty && s.toList.all (fun c => isDigitChar c || c == '-')

/-- `validateInputs` (entrust-totp.js lines 349–389, browser front end):
`some message` is the returned error string, `none` is a pass. String
truthiness of the four required fields is non-emptiness. -/
def validateInputs (serial activationCode registrationCode accountName : String) :
    Option String :=
  if serial.isEmpty || activationCode.isEmpty || registrationCode.isEmpty ||
      accountName.isEmpty then
    some "必要なフィールドが入力されていません。"
  else if !jsTestDigitHyphen serial then
    some "シリアル番号は数字とハイフンのみで入力してください。"
  else if !jsTestDigitHyphen activationCode then
    some "アクティベーションコードは数字とハイフンのみで入力してください。"
  else if !jsTestDigitHyphen registrationCode then
    some "登録コードは数字とハイフンのみで入力してください。"
  else
    let cleanSerial := parseCode serial
    let cleanActivation := parseCode activationCode
    let cleanRegistration := parseCode registrationCode
    if cleanSerial.length < 5 || 20 < cleanSerial.length then
      some "シリアル番号の桁数が正しくありません。"
    else if cleanActivation.length < 10 || 20 < cleanActivation.length then
      some "アクティベーションコードの桁数が正しくありません。"
    else if cleanRegistration.length < 5 || 15 < cleanRegistration.length then
      some "登録コードの桁数が正しくありません。"
    else
      none

/-- A string of digits and hyphens only — the documented input charset of
the three codes. -/
def digitHyphen (s : String) : Bool :=
  s.toList.all (fun c => isDigitChar c || c == '-')

/-- The residue a code contributes: hyphens stripped, final character (the
check digit) removed. -/
def residueChars (s : String) : List Char :=
  (parseCode s).toList.dropLast

/-- Decimal value of a code's residue. -/
def residueVal (s : String) : Nat :=
  digitsToNat (residueChars s)

/-- The password layout the specification describes: low-order 7 bytes of
the 8-byte big-endian activation value, then bytes at offsets 2–3 of the
4-byte big-endian registration value, then the UTF-8 bytes of the policy
when it is non-empty. -/
def specPassword (actVal regVal : Nat) (policy : String) : List Nat :=
  (beBytes actVal 8).drop 1 ++ (beBytes regVal 4).drop 2 ++
    (if policy = "" then [] else utf8Bytes policy)

/-- A key-derivation function that returns its password argument, used to
observe the exact password handed to the KDF. -/
def passwordProbe : List Nat → List Nat → Nat → Nat → List Nat :=
  fun password _ _ _ => password

/-- The two RNG bytes the registration code contributes in the Node
variant, errors included: `parseInt` on the residue, `writeUInt32BE`,
bytes at offsets 2–3. -/
def regField (registrationCode : String) : Except JsError (List Nat) :=
  (writeUInt32BE (parseIntJs (jsSlice0Neg1 (parseCode registrationCode)))).map
    (fun b => (b.drop 2).take 2)

/-- Characters that can occur in some string accepted by `BigInt(string)`:
JS whitespace, decimal and hexadecimal digits, the signs and the radix
prefix letters `x X o O b B` (code points 120 88 111 79 98 66 43 45). -/
def bigIntNumChar (c : Char) : Bool :=
  isJsWhitespace c || isDigitChar c || (digitValue? 16 c).isSome ||
  [120, 88, 111, 79, 98, 66, 43, 45].contains c.toNat

/-! ### Parsing lemmas -/

theorem digitValue10_of_digit (c : Char) (h : isDigitChar c = true) :
    digitValue? 10 c = some (c.toNat - 48) := by
  have hx : charHexVal? c = some (c.toNat - 48) := by
    rw [charHexVal?, if_pos h]
  simp only [digitValue?, hx]
  rw [if_pos]
  simp only [isDigitChar, Bool.and_eq_true, decide_eq_true_eq] at h
  omega

theorem isJsWhitespace_of_digit (c : Char) (h : isDigitChar c = true) :
    isJsWhitespace c = false := by
  simp only [isDigitChar, Bool.and_eq_true, decide_eq_true_eq] at h
  simp only [isJsWhitespace, Bool.or_eq_false_iff, Bool.and_eq_false_iff,
    decide_eq_false_iff_not, Bool.and_eq_true, decide_eq_true_eq]
  omega

theorem dropWhile_eq_self_of_all {p : Char → Bool} {l : List Char}
    (h : ∀ c ∈ l, p c = false) : l.dropWhile p = l := by
  cases l with
  | nil => rfl
  | cons c cs =>
    rw [List.dropWhile_cons, if_neg]
    simp [h c (by simp)]

theorem parseRadixGo_digits (l : List Char) (h : ∀ c ∈ l, isDigitChar c = true) :
    ∀ acc : Nat, parseRadixGo 10 acc l =
      some (l.foldl (fun a c => a * 10 + (c.toNat - 48)) acc) := by
  induction l with
  | nil => intro acc; rfl
  | cons c cs ih =>
    intro acc
    have hc := h c (by simp)
    rw [List.foldl_cons, parseRadixGo, digitValue10_of_digit c hc]
    exact ih (fun x hx => h x (by simp [hx])) _

theorem parseRadix_digits (l : List Char) (h : ∀ c ∈ l, isDigitChar c = true)
    (hne : l ≠ []) : parseRadix 10 l = some (digitsToNat l) := by
  rw [parseRadix, if_neg (by simpa using hne)]
  exact parseRadixGo_digits l h 0

theorem trim_eq_self_of_digits (l : List Char) (h : ∀ c ∈ l, isDigitChar c = true) :
    ((l.dropWhile isJsWhitespace).reverse.dropWhile isJsWhitespace).reverse = l := by
  rw [dropWhile_eq_self_of_all (fun c hc => isJsWhitespace_of_digit c (h c hc)),
    dropWhile_eq_self_of_all
      (fun c hc => isJsWhitespace_of_digit c (h c (List.mem_reverse.mp hc))),
    List.reverse_reverse]

theorem parseSignedDec_digits (l : List Char) (h : ∀ c ∈ l, isDigitChar c = true)
    (hne : l ≠ []) : parseSignedDec l = some (Int.ofNat (digitsToNat l)) := by
  have hrad := parseRadix_digits l h hne
  rw [parseSignedDec.eq_def]
  split
  · rename_i rest
    exact absurd (h '+' (by simp)) (by decide)
  · rename_i rest
    exact absurd (h '-' (by simp)) (by decide)
  · rw [hrad]; rfl

theorem jsStringToBigInt_digits (l : List Char) (h : ∀ c ∈ l, isDigitChar c = true) :
    jsStringToBigInt (String.mk l) = some (Int.ofNat (digitsToNat l)) := by
  have htoList : (String.mk l).toList = l := rfl
  rw [jsStringToBigInt.eq_def, htoList, trim_eq_self_of_digits l h]
  cases l with
  | nil => rfl
  | cons c cs =>
    have hsigned := parseSignedDec_digits (c :: cs) h (by simp)
    split
    · rename_i heq; exact absurd heq (by simp)
    · rename_i a x0 rest0 heq
      injection heq with hc hcs
      subst hc
      subst hcs
      have hx0 : isDigitChar x0 = true := h x0 (by simp)
      have hxx : ¬(x0 = 'x' ∨ x0 = 'X') := by
        rintro (rfl | rfl) <;> exact absurd hx0 (by decide)
      have hxo : ¬(x0 = 'o' ∨ x0 = 'O') := by
        rintro (rfl | rfl) <;> exact absurd hx0 (by decide)
      have hxb : ¬(x0 = 'b' ∨ x0 = 'B') := by
        rintro (rfl | rfl) <;> exact absurd hx0 (by decide)
      rw [if_neg hxx, if_neg hxo, if_neg hxb]
      exact hsigned
    · exact hsigned

theorem takeWhile_eq_self_of_all {p : Char → Bool} {l : List Char}
    (h : ∀ c ∈ l, p c = true) : l.takeWhile p = l := by
  induction l with
  | nil => rfl
  | cons c cs ih =>
    rw [List.takeWhile_cons, if_pos (h c (by simp))]
    rw [ih (fun x hx => h x (by simp [hx]))]

theorem radixPrefixVal_digits (l : List Char) (h : ∀ c ∈ l, isDigitChar c = true)
    (hne : l ≠ []) : radixPrefixVal 10 l = some (digitsToNat l) := by
  rw [radixPrefixVal, takeWhile_eq_self_of_all
      (fun c hc => by rw [digitValue10_of_digit c (h c hc)]; rfl),
    parseRadix_digits l h hne]

theorem parseIntAfterSign_digits (l : List Char) (h : ∀ c ∈ l, isDigitChar c = true)
    (hne : l ≠ []) : parseIntAfterSign l = some (digitsToNat l) := by
  have hpref := radixPrefixVal_digits l h hne
  rw [parseIntAfterSign.eq_def]
  split
  · rename_i x rest
    have hx : isDigitChar x = true := h x (by simp)
    rw [if_neg (by rintro (rfl | rfl) <;> exact absurd hx (by decide))]
    exact hpref
  · exact hpref

theorem parseIntJs_digits (l : List Char) (h : ∀ c ∈ l, isDigitChar c = true)
    (hne : l ≠ []) : parseIntJs (String.mk l) = some (Int.ofNat (digitsToNat l)) := by
  have htoList : (String.mk l).toList = l := rfl
  rw [parseIntJs.eq_def, htoList,
    dropWhile_eq_self_of_all (fun c hc => isJsWhitespace_of_digit c (h c hc))]
  cases l with
  | nil => exact absurd rfl hne
  | cons c cs =>
    have hafter := parseIntAfterSign_digits (c :: cs) h (by simp)
    split
    · rename_i rest heq
      have : isDigitChar '+' = true := by
        injection heq with h1 _
        exact h1 ▸ h c (by simp)
      exact absurd this (by decide)
    · rename_i rest heq
      have : isDigitChar '-' = true := by
        injection heq with h1 _
        exact h1 ▸ h c (by simp)
      exact absurd this (by decide)
    · rw [hafter]; rfl

/-! ### Byte-layout lemmas -/

theorem beBytes_length : ∀ (n v : Nat), (beBytes v n).length = n := by
  intro n
  induction n with
  | zero => intro v; rfl
  | succ k ih => intro v; simp [beBytes, ih]

theorem beBytes_zero : ∀ n : Nat, beBytes 0 n = List.replicate n 0 := by
  intro n
  induction n with
  | zero => rfl
  | succ k ih =>
    rw [beBytes, Nat.zero_div, ih, Nat.zero_mod, List.replicate_succ']

theorem beBytes_drop_one : ∀ (n v : Nat),
    (beBytes v (n + 1)).drop 1 = beBytes (v % 256 ^ n) n := by
  intro n
  induction n with
  | zero => intro v; rfl
  | succ k ih =>
    intro v
    rw [show beBytes v (k + 1 + 1) = beBytes (v / 256) (k + 1) ++ [v % 256] from rfl]
    rw [List.drop_append_of_le_length (by rw [beBytes_length]; omega)]
    rw [ih]
    rw [show beBytes (v % 256 ^ (k + 1)) (k + 1) =
      beBytes (v % 256 ^ (k + 1) / 256) k ++ [v % 256 ^ (k + 1) % 256] from rfl]
    congr 1
    · congr 1
      rw [pow_succ, mul_comm]
      exact (Nat.mod_mul_right_div_self v 256 (256 ^ k)).symm
    · rw [Nat.mod_mod_of_dvd v (dvd_pow_self 256 (Nat.succ_ne_zero k))]

theorem beBytes_drop_one_of_lt (n v : Nat) (h : v < 256 ^ n) :
    (beBytes v (n + 1)).drop 1 = beBytes v n := by
  rw [beBytes_drop_one, Nat.mod_eq_of_lt h]

/-! ### Residue lemmas -/

theorem residueChars_digits (s : String) (h : digitHyphen s = true) :
    ∀ c ∈ residueChars s, isDigitChar c = true := by
  intro c hc
  have hc2 : c ∈ (parseCode s).toList := List.dropLast_subset _ hc
  rw [parseCode] at hc2
  have hc3 := List.mem_filter.mp hc2
  have hall := List.all_eq_true.mp h c hc3.1
  rcases Bool.or_eq_true_iff.mp hall with hd | he
  · exact hd
  · exact absurd (by simpa using he) (by simpa using hc3.2)

theorem string_length_pos_iff (s : String) : 0 < s.length ↔ s ≠ "" := by
  cases s with
  | mk data =>
    cases data with
    | nil => simp [String.length]
    | cons c cs =>
      simp only [String.length]
      constructor
      · intro _ heq
        have : (String.mk (c :: cs)).data = ("" : String).data := by rw [heq]
        simp at this
      · intro _; simp

/-- `BigInt` on a digit/hyphen code's residue is its decimal value. -/
theorem jsStringToBigInt_residue (act : String) (ha : digitHyphen act = true) :
    jsStringToBigInt (jsSlice0Neg1 (parseCode act)) =
      some (Int.ofNat (residueVal act)) :=
  jsStringToBigInt_digits (residueChars act) (residueChars_digits act ha)

theorem writeBigUInt64BE_lt (v : Nat) (h : v < 2 ^ 64) :
    writeBigUInt64BE (Int.ofNat v) = Except.ok (beBytes v 8) := by
  simp only [writeBigUInt64BE, Int.ofNat_eq_natCast]
  rw [if_pos (by constructor <;> omega :
    (0 : Int) ≤ (v : Int) ∧ ((v : Int)) ≤ 2 ^ 64 - 1)]
  rw [Int.toNat_natCast]

theorem writeBigUInt64BE_ge (v : Nat) (h : 2 ^ 64 ≤ v) :
    writeBigUInt64BE (Int.ofNat v) = Except.error JsError.rangeError := by
  simp only [writeBigUInt64BE, Int.ofNat_eq_natCast]
  rw [if_neg]
  rintro ⟨-, hle⟩
  omega

/-- `parseInt` on a digit/hyphen code's nonempty residue is its decimal
value. -/
theorem parseIntJs_residue (reg : String) (hr : digitHyphen reg = true)
    (hne : residueChars reg ≠ []) :
    parseIntJs (jsSlice0Neg1 (parseCode reg)) =
      some (Int.ofNat (residueVal reg)) := by
  have hresdef : jsSlice0Neg1 (parseCode reg) = String.mk (residueChars reg) := rfl
  rw [hresdef]
  exact parseIntJs_digits (residueChars reg) (residueChars_digits reg hr) hne

/-- The four registration bytes on a valid digit/hyphen registration code
(the empty residue is `NaN`, written as four zero bytes — the same bytes as
the value 0). -/
theorem writeUInt32BE_residue (reg : String) (hr : digitHyphen reg = true)
    (hr32 : residueVal reg < 2 ^ 32) :
    writeUInt32BE (parseIntJs (jsSlice0Neg1 (parseCode reg))) =
      Except.ok (beBytes (residueVal reg) 4) := by
  have hvdef : residueVal reg = digitsToNat (residueChars reg) := rfl
  cases hrc : residueChars reg with
  | nil =>
    rw [show jsSlice0Neg1 (parseCode reg) = String.mk (residueChars reg) from rfl, hrc]
    rw [show parseIntJs (String.mk []) = none from rfl]
    rw [hvdef, hrc]
    rfl
  | cons c cs =>
    rw [parseIntJs_residue reg hr (by rw [hrc]; simp)]
    simp only [writeUInt32BE, Int.ofNat_eq_natCast]
    rw [if_pos (by constructor <;> omega :
      (0 : Int) ≤ (residueVal reg : Int) ∧
        ((residueVal reg : Int)) ≤ 2 ^ 32 - 1)]
    rw [Int.toNat_natCast]

/-- Core normal form of the Node derivation on valid inputs: digit/hyphen
codes, activation residue below `2 ^ 56`, registration residue below
`2 ^ 32`. -/
theorem generateOtpSecret_valid (kdf : List Nat → List Nat → Nat → Nat → List Nat)
    (serial act reg policy : String)
    (ha : digitHyphen act = true) (ha56 : residueVal act < 2 ^ 56)
    (hr : digitHyphen reg = true) (hr32 : residueVal reg < 2 ^ 32) :
    generateOtpSecret kdf serial act reg policy =
      Except.ok (kdf (specPassword (residueVal act) (residueVal reg) policy)
        (utf8Bytes (parseCode serial)) 8 16) := by
  have hactparse := jsStringToBigInt_residue act ha
  have hwrite := writeBigUInt64BE_lt (residueVal act) (by omega)
  have hreg := writeUInt32BE_residue reg hr hr32
  simp only [generateOtpSecret, hactparse, hwrite, hreg]
  simp only [specPassword]
  have htake : ((beBytes (residueVal reg) 4).drop 2).take 2 =
      (beBytes (residueVal reg) 4).drop 2 := by
    apply List.take_of_length_le
    rw [List.length_drop, beBytes_length]
  rw [htake]
  by_cases hp : policy = ""
  · subst hp
    rw [if_neg (by decide), if_pos rfl, List.append_nil]
  · rw [if_pos ((string_length_pos_iff policy).mpr hp), if_neg hp]

/-! ### Browser-variant packing lemmas -/

theorem bigIntToBytes_ofNat : ∀ (n v : Nat), bigIntToBytes (Int.ofNat v) n = beBytes v n := by
  intro n
  induction n with
  | zero => intro v; rfl
  | succ k ih =>
    intro v
    have h1 : bigIntToBytes (Int.ofNat v) (k + 1) =
        bigIntToBytes (Int.ediv (Int.ofNat v) 256) k ++
          [(Int.emod (Int.ofNat v) 256).toNat] := rfl
    rw [h1,
      show Int.ediv (Int.ofNat v) 256 = Int.ofNat (v / 256) from rfl,
      show (Int.emod (Int.ofNat v) 256).toNat = v % 256 from rfl,
      ih]
    rfl

theorem uint32ToBytes_of_lt (v : Nat) (h : v < 2 ^ 32) :
    uint32ToBytes (some (Int.ofNat v)) = beBytes v 4 := by
  have hm : jsToUint32 (some (Int.ofNat v)) = v := by
    show ((Int.ofNat v) % ((2 : Int) ^ 32)).toNat = v
    simp only [Int.ofNat_eq_natCast]
    rw [Int.emod_eq_of_lt (Int.natCast_nonneg v) (by exact_mod_cast h)]
    rfl
  simp only [uint32ToBytes, hm]
  simp [beBytes, Nat.div_div_eq_div_mul]

/-- Core normal form of the browser derivation on valid inputs, equal to the
Node one. -/
theorem browser_generateOtpSecret_valid
    (kdf : List Nat → List Nat → Nat → Nat → List Nat)
    (serial act reg policy : String)
    (ha : digitHyphen act = true) (ha56 : residueVal act < 2 ^ 56)
    (hr : digitHyphen reg = true) (hr32 : residueVal reg < 2 ^ 32) :
    Browser.generateOtpSecret kdf serial act reg policy =
      Except.ok (kdf (specPassword (residueVal act) (residueVal reg) policy)
        (utf8Bytes (parseCode serial)) 8 16) := by
  have hactparse := jsStringToBigInt_residue act ha
  have hreg : uint32ToBytes (parseIntJs (jsSlice0Neg1 (parseCode reg))) =
      beBytes (residueVal reg) 4 := by
    have hvdef : residueVal reg = digitsToNat (residueChars reg) := rfl
    cases hrc : residueChars reg with
    | nil =>
      rw [show jsSlice0Neg1 (parseCode reg) = String.mk (residueChars reg) from rfl, hrc]
      rw [show parseIntJs (String.mk []) = none from rfl]
      rw [hvdef, hrc]
      rfl
    | cons c cs =>
      rw [parseIntJs_residue reg hr (by rw [hrc]; simp)]
      exact uint32ToBytes_of_lt (residueVal reg) hr32
  simp only [Browser.generateOtpSecret, hactparse, bigIntToBytes_ofNat, hreg]
  simp only [specPassword]
  have htake : ((beBytes (residueVal reg) 4).drop 2).take 2 =
      (beBytes (residueVal reg) 4).drop 2 := by
    apply List.take_of_length_le
    rw [List.length_drop, beBytes_length]
  rw [htake]
  by_cases hp : policy = ""
  · subst hp
    rw [if_neg (by decide), if_pos rfl, List.append_nil]
  · rw [if_pos ((string_length_pos_iff policy).mpr hp), if_neg hp]

/-! ### Claim theorems -/

/-- Claim C1: for every valid input — digit/hyphen strings whose activation
residue is below `2 ^ 56` and whose registration residue is below `2 ^ 32` —
`generateOtpSecret` returns exactly the key-derivation function
(PBKDF2-HMAC-SHA-256, 8 iterations, 16 output bytes, abstracted as `kdf`)
applied to the password `low 7 bytes of the 8-byte big-endian activation
value ‖ bytes 2–3 of the 4-byte big-endian registration value ‖ UTF-8
policy when non-empty` and the salt `UTF-8 bytes of the hyphen-stripped
serial with its last character kept`. -/
theorem C1_derivation_pbkdf2_arguments
    (kdf : List Nat → List Nat → Nat → Nat → List Nat)
    (serial act reg policy : String)
    (hs : digitHyphen serial = true)
    (ha : digitHyphen act = true) (ha56 : residueVal act < 2 ^ 56)
    (hr : digitHyphen reg = true) (hr32 : residueVal reg < 2 ^ 32) :
    generateOtpSecret kdf serial act reg policy =
      Except.ok (kdf (specPassword (residueVal act) (residueVal reg) policy)
        (utf8Bytes (parseCode serial)) 8 16) :=
  generateOtpSecret_valid kdf serial act reg policy ha ha56 hr hr32

theorem C1_derivation_pbkdf2_arguments_witness :
    (digitHyphen "48244-13456" = true ∧ digitHyphen "1745-7712-6942-8698" = true ∧
      residueVal "1745-7712-6942-8698" < 2 ^ 56 ∧
      digitHyphen "12211-49352" = true ∧ residueVal "12211-49352" < 2 ^ 32) ∧
    generateOtpSecret passwordProbe "48244-13456" "1745-7712-6942-8698"
        "12211-49352" "" =
      Except.ok (passwordProbe
        (specPassword (residueVal "1745-7712-6942-8698")
          (residueVal "12211-49352") "")
        (utf8Bytes (parseCode "48244-13456")) 8 16) :=
  ⟨⟨by decide, by decide, by decide, by decide, by decide⟩,
    C1_derivation_pbkdf2_arguments passwordProbe "48244-13456"
      "1745-7712-6942-8698" "12211-49352" ""
      (by decide) (by decide) (by decide) (by decide) (by decide)⟩

/-- Claim C9: on every digit/hyphen input quadruple within the documented
ranges (activation residue below `2 ^ 56`, registration residue below
`2 ^ 32`), the Node CLI secret deriver and the browser-variant secret
deriver hand the same password and salt to PBKDF2-HMAC-SHA-256 (the shared
abstract `kdf`), hence compute byte-identical secrets. -/
theorem C9_cli_browser_agree
    (kdf : List Nat → List Nat → Nat → Nat → List Nat)
    (serial act reg policy : String)
    (hs : digitHyphen serial = true)
    (ha : digitHyphen act = true) (ha56 : residueVal act < 2 ^ 56)
    (hr : digitHyphen reg = true) (hr32 : residueVal reg < 2 ^ 32) :
    generateOtpSecret kdf serial act reg policy =
      Browser.generateOtpSecret kdf serial act reg policy := by
  rw [generateOtpSecret_valid kdf serial act reg policy ha ha56 hr hr32,
    browser_generateOtpSecret_valid kdf serial act reg policy ha ha56 hr hr32]

theorem C9_cli_browser_agree_witness :
    (digitHyphen "48244-13456" = true ∧ digitHyphen "1745-7712-6942-8698" = true ∧
      residueVal "1745-7712-6942-8698" < 2 ^ 56 ∧
      digitHyphen "12211-49352" = true ∧ residueVal "12211-49352" < 2 ^ 32) ∧
    generateOtpSecret passwordProbe "48244-13456" "1745-7712-6942-8698"
        "12211-49352" "{}" =
      Browser.generateOtpSecret passwordProbe "48244-13456" "1745-7712-6942-8698"
        "12211-49352" "{}" :=
  ⟨⟨by decide, by decide, by decide, by decide, by decide⟩,
    C9_cli_browser_agree passwordProbe "48244-13456" "1745-7712-6942-8698"
      "12211-49352" "{}"
      (by decide) (by decide) (by decide) (by decide) (by decide)⟩

/-- Claim C8: on every valid input the password handed to the
key-derivation function is exactly 9 bytes when the policy is empty and
`9 + len(utf8(policy))` bytes when it is non-empty (observed through the
`passwordProbe` KDF, which returns its password argument). -/
theorem C8_password_length (serial act reg policy : String)
    (ha : digitHyphen act = true) (ha56 : residueVal act < 2 ^ 56)
    (hr : digitHyphen reg = true) (hr32 : residueVal reg < 2 ^ 32) :
    (generateOtpSecret passwordProbe serial act reg policy).map List.length =
      Except.ok (if policy = "" then 9 else 9 + (utf8Bytes policy).length) := by
  rw [generateOtpSecret_valid passwordProbe serial act reg policy ha ha56 hr hr32]
  simp only [Except.map, passwordProbe, specPassword]
  by_cases hp : policy = ""
  · rw [if_pos hp, if_pos hp]
    simp [List.length_append, List.length_drop, beBytes_length]
  · rw [if_neg hp, if_neg hp]
    simp [List.length_append, List.length_drop, beBytes_length]
    omega

theorem C8_password_length_witness :
    (digitHyphen "1745-7712-6942-8698" = true ∧
      residueVal "1745-7712-6942-8698" < 2 ^ 56 ∧
      digitHyphen "12211-49352" = true ∧ residueVal "12211-49352" < 2 ^ 32) ∧
    (generateOtpSecret passwordProbe "48244-13456" "1745-7712-6942-8698"
        "12211-49352" "\x7bkey\x7d").map List.length =
      Except.ok (if ("\x7bkey\x7d" : String) = "" then 9
        else 9 + (utf8Bytes "\x7bkey\x7d").length) :=
  ⟨⟨by decide, by decide, by decide, by decide⟩,
    C8_password_length "48244-13456" "1745-7712-6942-8698" "12211-49352"
      "\x7bkey\x7d" (by decide) (by decide) (by decide) (by decide)⟩

/-- Claim C3: a registration code whose residue (after hyphen and
check-digit removal) is a decimal value of `2 ^ 32` or more makes
`generateOtpSecret` throw a `RangeError` (the other inputs being valid);
no result is returned. -/
theorem C3_registration_range_error
    (kdf : List Nat → List Nat → Nat → Nat → List Nat)
    (serial act reg policy : String)
    (ha : digitHyphen act = true) (ha56 : residueVal act < 2 ^ 56)
    (hr : digitHyphen reg = true) (hbig : 2 ^ 32 ≤ residueVal reg) :
    generateOtpSecret kdf serial act reg policy =
      Except.error JsError.rangeError := by
  have hactparse := jsStringToBigInt_residue act ha
  have hwrite := writeBigUInt64BE_lt (residueVal act) (by omega)
  have hne : residueChars reg ≠ [] := by
    intro h0
    have : residueVal reg = 0 := by
      rw [show residueVal reg = digitsToNat (residueChars reg) from rfl, h0]
      rfl
    omega
  have hregparse := parseIntJs_residue reg hr hne
  have hreg : writeUInt32BE (parseIntJs (jsSlice0Neg1 (parseCode reg))) =
      Except.error JsError.rangeError := by
    rw [hregparse]
    simp only [writeUInt32BE, Int.ofNat_eq_natCast]
    rw [if_neg]
    rintro ⟨-, hle⟩
    omega
  simp only [generateOtpSecret, hactparse, hwrite, hreg]

theorem C3_registration_range_error_witness :
    (digitHyphen "1745-7712-6942-8698" = true ∧
      residueVal "1745-7712-6942-8698" < 2 ^ 56 ∧
      digitHyphen "9999999999-9" = true ∧ 2 ^ 32 ≤ residueVal "9999999999-9") ∧
    generateOtpSecret passwordProbe "48244-13456" "1745-7712-6942-8698"
        "9999999999-9" "" = Except.error JsError.rangeError :=
  ⟨⟨by decide, by decide, by decide, by decide⟩,
    C3_registration_range_error passwordProbe "48244-13456"
      "1745-7712-6942-8698" "9999999999-9" ""
      (by decide) (by decide) (by decide) (by decide)⟩

/-- Claim C2 is refuted at activation residue `2 ^ 56` exactly (code
`"720575940379279360"` = residue `72057594037927936` plus a check digit):
the derivation does NOT throw a `RangeError` — it succeeds, and the 7-byte
activation field is the silently truncated low 7 bytes (all zero here),
observed through `passwordProbe`. -/
theorem C2_counterexample :
    2 ^ 56 ≤ residueVal "720575940379279360" ∧
    generateOtpSecret passwordProbe "12345" "720575940379279360" "123456" "" =
      Except.ok [0, 0, 0, 0, 0, 0, 0, 48, 57] := by
  constructor
  · decide
  · rfl

/-- Claim C2 (amended): `writeBigUInt64BE` only rejects values of `2 ^ 64`
or more, so an activation residue in `[2 ^ 56, 2 ^ 64)` is silently
truncated to its low-order 7 bytes (`value % 2 ^ 56`, big-endian), and a
`RangeError` is thrown exactly when the value reaches `2 ^ 64`. -/
theorem C2_amended_truncation_below_64_bits
    (kdf : List Nat → List Nat → Nat → Nat → List Nat)
    (serial act reg policy : String)
    (ha : digitHyphen act = true) (hbig : 2 ^ 56 ≤ residueVal act)
    (hr : digitHyphen reg = true) (hr32 : residueVal reg < 2 ^ 32) :
    generateOtpSecret kdf serial act reg policy =
      if residueVal act < 2 ^ 64 then
        Except.ok (kdf (beBytes (residueVal act % 2 ^ 56) 7 ++
          (beBytes (residueVal reg) 4).drop 2 ++
          (if policy = "" then [] else utf8Bytes policy))
          (utf8Bytes (parseCode serial)) 8 16)
      else Except.error JsError.rangeError := by
  have hactparse := jsStringToBigInt_residue act ha
  by_cases h64 : residueVal act < 2 ^ 64
  · rw [if_pos h64]
    have hwrite := writeBigUInt64BE_lt (residueVal act) h64
    have hreg := writeUInt32BE_residue reg hr hr32
    simp only [generateOtpSecret, hactparse, hwrite, hreg]
    have hdrop : (beBytes (residueVal act) 8).drop 1 =
        beBytes (residueVal act % 2 ^ 56) 7 := by
      have h7 := beBytes_drop_one 7 (residueVal act)
      rw [show (256 : Nat) ^ 7 = 2 ^ 56 from by norm_num] at h7
      exact h7
    rw [hdrop]
    have htake : ((beBytes (residueVal reg) 4).drop 2).take 2 =
        (beBytes (residueVal reg) 4).drop 2 := by
      apply List.take_of_length_le
      rw [List.length_drop, beBytes_length]
    rw [htake]
    by_cases hp : policy = ""
    · subst hp
      rw [if_neg (by decide), if_pos rfl, List.append_nil]
    · rw [if_pos ((string_length_pos_iff policy).mpr hp), if_neg hp]
  · rw [if_neg h64]
    have hwrite := writeBigUInt64BE_ge (residueVal act) (by omega)
    simp only [generateOtpSecret, hactparse, hwrite]

theorem C2_amended_truncation_below_64_bits_witness :
    (digitHyphen "720575940379279360" = true ∧
      2 ^ 56 ≤ residueVal "720575940379279360" ∧
      digitHyphen "123456" = true ∧ residueVal "123456" < 2 ^ 32) ∧
    generateOtpSecret passwordProbe "12345" "720575940379279360" "123456" "" =
      (if residueVal "720575940379279360" < 2 ^ 64 then
        Except.ok (passwordProbe (beBytes (residueVal "720575940379279360" % 2 ^ 56) 7 ++
          (beBytes (residueVal "123456") 4).drop 2 ++
          (if ("" : String) = "" then [] else utf8Bytes ""))
          (utf8Bytes (parseCode "12345")) 8 16)
      else Except.error JsError.rangeError) :=
  ⟨⟨by decide, by decide, by decide, by decide⟩,
    C2_amended_truncation_below_64_bits passwordProbe "12345"
      "720575940379279360" "123456" ""
      (by decide) (by decide) (by decide) (by decide)⟩

/-- Claim C10: when the normalized activation code is a single character,
the residue after check-digit removal is empty, `BigInt` parses the empty
string as 0, and derivation succeeds with an all-zero 7-byte activation
field — while `validateInputs` (the CodeNormalizer length contract, 10–20
digits) always rejects such an input, showing the derivation enforces none
of its bounds. -/
theorem C10_one_char_activation_derives
    (kdf : List Nat → List Nat → Nat → Nat → List Nat)
    (serial act reg policy accountName : String)
    (h1 : (parseCode act).length = 1)
    (hr : digitHyphen reg = true) (hr32 : residueVal reg < 2 ^ 32) :
    generateOtpSecret kdf serial act reg policy =
      Except.ok (kdf (List.replicate 7 0 ++ (beBytes (residueVal reg) 4).drop 2 ++
        (if policy = "" then [] else utf8Bytes policy))
        (utf8Bytes (parseCode serial)) 8 16) ∧
    (validateInputs serial act reg accountName).isSome = true := by
  have hres : residueChars act = [] := by
    have hlen : (parseCode act).toList.length = 1 := h1
    rcases List.length_eq_one.mp hlen with ⟨c, hc⟩
    rw [residueChars, hc]
    rfl
  constructor
  · have hactparse : jsStringToBigInt (jsSlice0Neg1 (parseCode act)) =
        some (Int.ofNat 0) := by
      rw [show jsSlice0Neg1 (parseCode act) = String.mk (residueChars act) from rfl,
        hres]
      rfl
    have hwrite := writeBigUInt64BE_lt 0 (by norm_num)
    have hreg := writeUInt32BE_residue reg hr hr32
    simp only [generateOtpSecret, hactparse, hwrite, hreg]
    rw [show (beBytes 0 8).drop 1 = List.replicate 7 0 from by decide]
    have htake : ((beBytes (residueVal reg) 4).drop 2).take 2 =
        (beBytes (residueVal reg) 4).drop 2 := by
      apply List.take_of_length_le
      rw [List.length_drop, beBytes_length]
    rw [htake]
    by_cases hp : policy = ""
    · subst hp
      rw [if_neg (by decide), if_pos rfl, List.append_nil]
    · rw [if_pos ((string_length_pos_iff policy).mpr hp), if_neg hp]
  · simp only [validateInputs]
    repeat' split
    all_goals simp_all

theorem C10_one_char_activation_derives_witness :
    ((parseCode "7").length = 1 ∧ digitHyphen "12211-49352" = true ∧
      residueVal "12211-49352" < 2 ^ 32) ∧
    (generateOtpSecret passwordProbe "48244-13456" "7" "12211-49352" "" =
      Except.ok (passwordProbe
        (List.replicate 7 0 ++ (beBytes (residueVal "12211-49352") 4).drop 2 ++
          (if ("" : String) = "" then [] else utf8Bytes ""))
        (utf8Bytes (parseCode "48244-13456")) 8 16) ∧
    (validateInputs "48244-13456" "7" "12211-49352" "alice").isSome = true) :=
  ⟨⟨by decide, by decide, by decide⟩,
    C10_one_char_activation_derives passwordProbe "48244-13456" "7"
      "12211-49352" "" "alice" (by decide) (by decide) (by decide)⟩

/-- Appending a non-hyphen character to a code and then normalizing and
dropping the check digit gives back the normalized base: the final
character is discarded whatever it is, provided it is not a hyphen. -/
theorem residue_concat_nonhyphen (base : String) (c : Char) (hc : c ≠ '-') :
    jsSlice0Neg1 (parseCode (base ++ String.singleton c)) = parseCode base := by
  have hlist : (base ++ String.singleton c).toList = base.toList ++ [c] := by
    cases base
    rfl
  have hfilter : (base.toList ++ [c]).filter (fun x => x != '-') =
      base.toList.filter (fun x => x != '-') ++ [c] := by
    rw [List.filter_append]
    congr 1
    simp [hc]
  rw [jsSlice0Neg1, parseCode, hlist, hfilter]
  rw [show (String.mk (base.toList.filter (fun x => x != '-') ++ [c])).toList =
    base.toList.filter (fun x => x != '-') ++ [c] from rfl]
  rw [List.dropLast_concat]
  rfl

/-- Claim C7 is refuted when the differing final character is a hyphen:
`"123456789012"` and `"12345678901-"` differ only in their final character,
yet hyphen removal happens before check-digit removal, so the second code
loses a real digit and the KDF inputs differ (observed through
`passwordProbe`). -/
theorem C7_counterexample :
    generateOtpSecret passwordProbe "12345" "123456789012" "123456" "" ≠
      generateOtpSecret passwordProbe "12345" "12345678901-" "123456" "" := by
  intro h
  have h2 : (Except.ok [0, 0, 2, 223, 220, 28, 53, 48, 57] :
      Except JsError (List Nat)) = Except.ok [0, 0, 0, 73, 150, 2, 210, 48, 57] := h
  simp at h2

/-- Claim C7 (amended): changing only the final character of the activation
code or of the registration code leaves the derived secret byte-identical,
provided neither final character is a hyphen (the check digit is discarded,
not validated). -/
theorem C7_amended_final_char_irrelevant
    (kdf : List Nat → List Nat → Nat → Nat → List Nat)
    (serial : String) (baseA : String) (cA cA' : Char)
    (baseR : String) (cR cR' : Char) (policy : String)
    (hA : cA ≠ '-') (hA' : cA' ≠ '-') (hR : cR ≠ '-') (hR' : cR' ≠ '-') :
    generateOtpSecret kdf serial (baseA ++ String.singleton cA)
        (baseR ++ String.singleton cR) policy =
      generateOtpSecret kdf serial (baseA ++ String.singleton cA')
        (baseR ++ String.singleton cR) policy ∧
    generateOtpSecret kdf serial (baseA ++ String.singleton cA)
        (baseR ++ String.singleton cR) policy =
      generateOtpSecret kdf serial (baseA ++ String.singleton cA)
        (baseR ++ String.singleton cR') policy := by
  constructor
  · simp only [generateOtpSecret, residue_concat_nonhyphen baseA cA hA,
      residue_concat_nonhyphen baseA cA' hA']
  · simp only [generateOtpSecret, residue_concat_nonhyphen baseR cR hR,
      residue_concat_nonhyphen baseR cR' hR']

theorem C7_amended_final_char_irrelevant_witness :
    (('8' : Char) ≠ '-' ∧ ('0' : Char) ≠ '-' ∧ ('2' : Char) ≠ '-' ∧
      ('7' : Char) ≠ '-') ∧
    (generateOtpSecret passwordProbe "48244-13456"
        ("1745-7712-6942-869" ++ String.singleton '8')
        ("12211-4935" ++ String.singleton '2') "" =
      generateOtpSecret passwordProbe "48244-13456"
        ("1745-7712-6942-869" ++ String.singleton '0')
        ("12211-4935" ++ String.singleton '2') "" ∧
    generateOtpSecret passwordProbe "48244-13456"
        ("1745-7712-6942-869" ++ String.singleton '8')
        ("12211-4935" ++ String.singleton '2') "" =
      generateOtpSecret passwordProbe "48244-13456"
        ("1745-7712-6942-869" ++ String.singleton '8')
        ("12211-4935" ++ String.singleton '7') "") :=
  ⟨⟨by decide, by decide, by decide, by decide⟩,
    C7_amended_final_char_irrelevant passwordProbe "48244-13456"
      "1745-7712-6942-869" '8' '0' "12211-4935" '2' '7' ""
      (by decide) (by decide) (by decide) (by decide)⟩

/-! ### Characters of a successful BigInt parse -/

theorem digitValue_mono (r : Nat) (hr : r ≤ 16) (c : Char)
    (h : (digitValue? r c).isSome = true) : (digitValue? 16 c).isSome = true := by
  simp only [digitValue?] at h ⊢
  revert h
  cases hv : charHexVal? c with
  | none =>
    intro h
    change (none : Option Nat).isSome = true at h
    exact absurd h (by decide)
  | some d =>
    intro h
    change (if d < r then some d else none).isSome = true at h
    change (if d < 16 then some d else none).isSome = true
    by_cases hd : d < r
    · rw [if_pos (by omega)]
      rfl
    · rw [if_neg hd] at h
      exact absurd h (by simp)

theorem mem_dropWhile_of_mem {p : Char → Bool} {l : List Char} {c : Char}
    (hc : c ∈ l) (hp : p c = false) : c ∈ l.dropWhile p := by
  rw [← List.takeWhile_append_dropWhile (p := p) (l := l)] at hc
  rcases List.mem_append.mp hc with h1 | h2
  · have := List.mem_takeWhile_imp h1
    rw [hp] at this
    exact absurd this (by simp)
  · exact h2

theorem parseRadixGo_mem_isSome (r : Nat) (l : List Char) :
    ∀ (acc v : Nat), parseRadixGo r acc l = some v →
      ∀ c ∈ l, (digitValue? r c).isSome = true := by
  induction l with
  | nil => intro _ _ _ c hc; simp at hc
  | cons x xs ih =>
    intro acc v h c hc
    simp only [parseRadixGo] at h
    cases hd : digitValue? r x with
    | none => rw [hd] at h; exact absurd h (by simp)
    | some d =>
      rw [hd] at h
      rcases List.mem_cons.mp hc with rfl | hmem
      · rw [hd]; rfl
      · exact ih _ v h c hmem

theorem parseRadix_mem_isSome (r : Nat) (l : List Char) (v : Nat)
    (h : parseRadix r l = some v) :
    ∀ c ∈ l, (digitValue? r c).isSome = true := by
  rw [parseRadix] at h
  by_cases he : l.isEmpty
  · rw [if_pos he] at h; exact absurd h (by simp)
  · rw [if_neg he] at h
    exact parseRadixGo_mem_isSome r l 0 v h

theorem parseSignedDec_chars (l : List Char) (v : Int)
    (h : parseSignedDec l = some v) :
    ∀ c ∈ l, c = '+' ∨ c = '-' ∨ (digitValue? 10 c).isSome = true := by
  rw [parseSignedDec.eq_def] at h
  split at h
  · rename_i rest
    rcases Option.map_eq_some'.mp h with ⟨a, ha, -⟩
    intro c hc
    rcases List.mem_cons.mp hc with rfl | hmem
    · exact Or.inl rfl
    · exact Or.inr (Or.inr (parseRadix_mem_isSome 10 rest a ha c hmem))
  · rename_i rest
    rcases Option.map_eq_some'.mp h with ⟨a, ha, -⟩
    intro c hc
    rcases List.mem_cons.mp hc with rfl | hmem
    · exact Or.inr (Or.inl rfl)
    · exact Or.inr (Or.inr (parseRadix_mem_isSome 10 rest a ha c hmem))
  · rcases Option.map_eq_some'.mp h with ⟨a, ha, -⟩
    intro c hc
    exact Or.inr (Or.inr (parseRadix_mem_isSome 10 l a ha c hc))

theorem bigIntNumChar_of_sign_or_digit (c : Char)
    (h : c = '+' ∨ c = '-' ∨ (digitValue? 10 c).isSome = true) :
    bigIntNumChar c = true := by
  rcases h with rfl | rfl | hd
  · decide
  · decide
  · simp [bigIntNumChar, digitValue_mono 10 (by omega) c hd]

theorem bigIntNumChar_radix_branch (r : Nat) (hr : r ≤ 16) (x : Char)
    (hx : bigIntNumChar x = true) (rest : List Char) (a : Nat)
    (ha : parseRadix r rest = some a) (c : Char)
    (hc : c ∈ '0' :: x :: rest) : bigIntNumChar c = true := by
  rcases List.mem_cons.mp hc with rfl | hm
  · decide
  · rcases List.mem_cons.mp hm with rfl | hm2
    · exact hx
    · simp [bigIntNumChar,
        digitValue_mono r hr c (parseRadix_mem_isSome r rest a ha c hm2)]

/-- Every character of a string accepted by `BigInt(string)` is whitespace,
a digit, a hexadecimal digit, a sign, or a radix prefix letter. -/
theorem bigIntNumChar_of_parse_some (s : String) (v : Int)
    (h : jsStringToBigInt s = some v) :
    ∀ c ∈ s.toList, bigIntNumChar c = true := by
  intro c hc
  by_cases hws : isJsWhitespace c = true
  · simp [bigIntNumChar, hws]
  · have hwsf : isJsWhitespace c = false := by
      cases hb : isJsWhitespace c
      · rfl
      · exact absurd hb hws
    have hc1 : c ∈ s.toList.dropWhile isJsWhitespace :=
      mem_dropWhile_of_mem hc hwsf
    have hc2 : c ∈
        ((s.toList.dropWhile isJsWhitespace).reverse.dropWhile isJsWhitespace).reverse := by
      rw [List.mem_reverse]
      exact mem_dropWhile_of_mem (List.mem_reverse.mpr hc1) hwsf
    rw [jsStringToBigInt.eq_def] at h
    revert h hc2
    generalize ((s.toList.dropWhile isJsWhitespace).reverse.dropWhile
      isJsWhitespace).reverse = T
    intro h hc2
    split at h
    · simp at hc2
    · rename_i x rest
      split at h
      · rename_i hxcond
        rcases Option.map_eq_some'.mp h with ⟨a, ha, -⟩
        exact bigIntNumChar_radix_branch 16 (by omega) x
          (by rcases hxcond with rfl | rfl <;> decide) rest a ha c hc2
      · split at h
        · rename_i hxcond
          rcases Option.map_eq_some'.mp h with ⟨a, ha, -⟩
          exact bigIntNumChar_radix_branch 8 (by omega) x
            (by rcases hxcond with rfl | rfl <;> decide) rest a ha c hc2
        · split at h
          · rename_i hxcond
            rcases Option.map_eq_some'.mp h with ⟨a, ha, -⟩
            exact bigIntNumChar_radix_branch 2 (by omega) x
              (by rcases hxcond with rfl | rfl <;> decide) rest a ha c hc2
          · exact bigIntNumChar_of_sign_or_digit c
              (parseSignedDec_chars _ v h c hc2)
    · exact bigIntNumChar_of_sign_or_digit c
        (parseSignedDec_chars _ v h c hc2)

/-- Claim C4 is refuted at two concrete inputs. First, registration code
`"12x45"`: its residue `"12x4"` contains a non-digit, yet no error is
raised — `parseInt` silently contributes the numeric prefix 12, whose
big-endian low bytes `[0, 12]` end the password. Second, activation code
`"0x1A7"`: its residue `"0x1A"` contains non-digits, yet `BigInt` accepts
it as the hexadecimal numeral 26 and derivation succeeds. -/
theorem C4_counterexample :
    generateOtpSecret passwordProbe "12345" "12345678901" "12x45" "" =
      Except.ok [0, 0, 0, 73, 150, 2, 210, 0, 12] ∧
    generateOtpSecret passwordProbe "12345" "0x1A7" "123456" "" =
      Except.ok [0, 0, 0, 0, 0, 0, 26, 48, 57] := by
  constructor
  · rfl
  · rfl

/-- Claim C4 (amended): a `SyntaxError` (the spec's ParseError) aborts the
derivation with no partial result when the activation residue contains a
character that can occur in no `BigInt` numeral (not a digit, hex digit,
sign, radix prefix letter, or whitespace); residues in `BigInt`'s extended
grammar (such as `0x…`) are accepted. A non-digit registration residue
never raises a parse error: whatever the registration code is, the
derivation returns `parseInt`'s longest-digit-prefix field (`regField`)
— a zero field when there is no prefix, a `RangeError` only when the
prefix value reaches `2 ^ 32`. -/
theorem C4_amended_parse_errors
    (kdf : List Nat → List Nat → Nat → Nat → List Nat)
    (serial act reg policy : String) (c : Char)
    (hc : c ∈ residueChars act) (hbad : bigIntNumChar c = false)
    (act2 : String)
    (ha : digitHyphen act2 = true) (ha56 : residueVal act2 < 2 ^ 56) :
    generateOtpSecret kdf serial act reg policy =
      Except.error JsError.parseError ∧
    generateOtpSecret kdf serial act2 reg policy =
      (regField reg).map (fun rng =>
        kdf ((beBytes (residueVal act2) 8).drop 1 ++ rng ++
          (if policy = "" then [] else utf8Bytes policy))
          (utf8Bytes (parseCode serial)) 8 16) := by
  constructor
  · have hparse : jsStringToBigInt (jsSlice0Neg1 (parseCode act)) = none := by
      cases hres : jsStringToBigInt (jsSlice0Neg1 (parseCode act)) with
      | none => rfl
      | some v =>
        have := bigIntNumChar_of_parse_some _ v hres c hc
        rw [hbad] at this
        exact absurd this (by simp)
    simp only [generateOtpSecret, hparse]
  · have hactparse := jsStringToBigInt_residue act2 ha
    have hwrite := writeBigUInt64BE_lt (residueVal act2) (by omega)
    simp only [generateOtpSecret, hactparse, hwrite, regField]
    cases hw : writeUInt32BE (parseIntJs (jsSlice0Neg1 (parseCode reg))) with
    | error e => simp [hw, Except.map]
    | ok rb =>
      simp only [hw, Except.map]
      by_cases hp : policy = ""
      · subst hp
        rw [if_neg (by decide), if_pos rfl, List.append_nil]
      · rw [if_pos ((string_length_pos_iff policy).mpr hp), if_neg hp]

theorem C4_amended_parse_errors_witness :
    (('z' : Char) ∈ residueChars "1234z678901" ∧ bigIntNumChar 'z' = false ∧
      digitHyphen "12345678901" = true ∧ residueVal "12345678901" < 2 ^ 56) ∧
    (generateOtpSecret passwordProbe "12345" "1234z678901" "12x45" "" =
      Except.error JsError.parseError ∧
    generateOtpSecret passwordProbe "12345" "12345678901" "12x45" "" =
      (regField "12x45").map (fun rng =>
        passwordProbe ((beBytes (residueVal "12345678901") 8).drop 1 ++ rng ++
          (if ("" : String) = "" then [] else utf8Bytes ""))
          (utf8Bytes (parseCode "12345")) 8 16)) :=
  ⟨⟨by decide, by decide, by decide, by decide⟩,
    C4_amended_parse_errors passwordProbe "12345" "1234z678901" "12x45" "" 'z'
      (by decide) (by decide) "12345678901" (by decide) (by decide)⟩

/-! ### Base32 alphabet lemmas -/

theorem b32Char_mem (i : Nat) : b32Char i ∈ b32Alphabet := by
  by_cases h : i < 32
  · rw [b32Char, List.getD_eq_getElem _ _ (by simpa using h)]
    exact List.getElem_mem _
  · rw [b32Char, List.getD_eq_default _ _ (by simpa using h)]
    decide

theorem b32EmitWhile_chars : ∀ (bits value : Nat),
    ∀ c ∈ (b32EmitWhile value bits).1, c ∈ b32Alphabet := by
  intro bits
  induction bits using Nat.strong_induction_on with
  | _ bits ih =>
    intro value c hc
    rcases bits with _ | _ | _ | _ | _ | b
    · simp [b32EmitWhile] at hc
    · simp [b32EmitWhile] at hc
    · simp [b32EmitWhile] at hc
    · simp [b32EmitWhile] at hc
    · simp [b32EmitWhile] at hc
    · simp only [b32EmitWhile] at hc
      rcases List.mem_cons.mp hc with rfl | hm
      · exact b32Char_mem _
      · exact ih b (by omega) value c hm

theorem base32Loop_chars : ∀ (data : List Nat) (value bits : Nat),
    ∀ c ∈ base32Loop data value bits, c ∈ b32Alphabet := by
  intro data
  induction data with
  | nil =>
    intro value bits c hc
    simp only [base32Loop] at hc
    split at hc
    · rcases List.mem_singleton.mp hc with rfl
      exact b32Char_mem _
    · simp at hc
  | cons b rest ih =>
    intro value bits c hc
    simp only [base32Loop] at hc
    rcases List.mem_append.mp hc with h1 | h2
    · exact b32EmitWhile_chars _ _ c h1
    · exact ih _ _ c h2

/-- Claim C6: every character of the Base32 encoder's output is drawn from
the RFC 4648 alphabet `A`–`Z`, `2`–`7`, and the output contains no `=`
padding character. -/
theorem C6_base32_no_padding (data : List Nat) (c : Char)
    (hc : c ∈ (base32Encode data).toList) :
    (('A' ≤ c ∧ c ≤ 'Z') ∨ ('2' ≤ c ∧ c ≤ '7')) ∧ c ≠ '=' := by
  have hmem : c ∈ b32Alphabet := base32Loop_chars data 0 0 c hc
  fin_cases hmem <;> exact ⟨by decide, by decide⟩

theorem C6_base32_no_padding_witness :
    ('A' : Char) ∈ (base32Encode [0]).toList ∧
    ((('A' ≤ ('A' : Char) ∧ ('A' : Char) ≤ 'Z') ∨
      ('2' ≤ ('A' : Char) ∧ ('A' : Char) ≤ '7')) ∧ ('A' : Char) ≠ '=') :=
  ⟨by decide, C6_base32_no_padding [0] 'A' (by decide)⟩

/-! ### otpauth URI shape -/

theorem urlSearchParamsToString_five (k1 v1 k2 v2 k3 v3 k4 v4 k5 v5 : String) :
    urlSearchParamsToString [(k1, v1), (k2, v2), (k3, v3), (k4, v4), (k5, v5)] =
      formUrlEncode k1 ++ "=" ++ formUrlEncode v1 ++ "&" ++
      (formUrlEncode k2 ++ "=" ++ formUrlEncode v2) ++ "&" ++
      (formUrlEncode k3 ++ "=" ++ formUrlEncode v3) ++ "&" ++
      (formUrlEncode k4 ++ "=" ++ formUrlEncode v4) ++ "&" ++
      (formUrlEncode k5 ++ "=" ++ formUrlEncode v5) := rfl

/-- Claim C5: for every issuer, account name and 16-byte secret, the
otpauth URI is exactly `otpauth://totp/` followed by the percent-encoding
of `issuer:accountName` as one path segment, then `?`, then the query
parameters in the fixed order `secret, issuer, algorithm, digits, period`,
each value form-urlencoded, with digits and period in decimal string form
(`6`, `30`) and the algorithm `SHA256`. -/
theorem C5_otpauth_uri_shape (issuer accountName : String)
    (secretBuffer : List Nat) (hlen : secretBuffer.length = 16) :
    generateOtpauthUri issuer accountName secretBuffer =
      "otpauth://totp/" ++ encodeURIComponent (issuer ++ ":" ++ accountName) ++
      "?" ++ "secret=" ++ formUrlEncode (base32Encode secretBuffer) ++
      "&issuer=" ++ formUrlEncode issuer ++
      "&algorithm=SHA256&digits=6&period=30" := by
  simp only [generateOtpauthUri]
  rw [urlSearchParamsToString_five]
  rw [show formUrlEncode "secret" = "secret" from rfl,
    show formUrlEncode "issuer" = "issuer" from rfl,
    show formUrlEncode "algorithm" = "algorithm" from rfl,
    show formUrlEncode "SHA256" = "SHA256" from rfl,
    show formUrlEncode "digits" = "digits" from rfl,
    show formUrlEncode "6" = "6" from rfl,
    show formUrlEncode "period" = "period" from rfl,
    show formUrlEncode "30" = "30" from rfl]
  apply String.ext
  simp only [String.data_append, List.append_assoc]
  rw [show ∀ x : List Char, "secret".data ++ ("=".data ++ x) =
    "secret=".data ++ x from fun x => rfl]
  rw [show ∀ x : List Char, "&".data ++ ("issuer".data ++ ("=".data ++ x)) =
    "&issuer=".data ++ x from fun x => rfl]
  rw [show "&".data ++ ("algorithm".data ++ ("=".data ++ ("SHA256".data ++
    ("&".data ++ ("digits".data ++ ("=".data ++ ("6".data ++
    ("&".data ++ ("period".data ++ ("=".data ++ "30".data)))))))))) =
    "&algorithm=SHA256&digits=6&period=30".data from rfl]

theorem C5_otpauth_uri_shape_witness :
    ([61, 198, 202, 164, 130, 74, 109, 40, 142, 47, 111, 43, 23, 46, 41, 223] :
      List Nat).length = 16 ∧
    generateOtpauthUri "Test" "user@example.com"
        [61, 198, 202, 164, 130, 74, 109, 40, 142, 47, 111, 43, 23, 46, 41, 223] =
      "otpauth://totp/" ++
        encodeURIComponent ("Test" ++ ":" ++ "user@example.com") ++ "?" ++
        "secret=" ++ formUrlEncode (base32Encode
          [61, 198, 202, 164, 130, 74, 109, 40, 142, 47, 111, 43, 23, 46, 41, 223]) ++
        "&issuer=" ++ formUrlEncode "Test" ++
        "&algorithm=SHA256&digits=6&period=30" :=
  ⟨by decide, C5_otpauth_uri_shape "Test" "user@example.com"
    [61, 198, 202, 164, 130, 74, 109, 40, 142, 47, 111, 43, 23, 46, 41, 223]
    (by decide)⟩
